import Mathlib

/-!
Verification of the client-side session watchdog, auth gate, route fallback
and cookie helpers of `src/public/js/core.js` (lemp-gui).

The JavaScript is embedded shallowly:
* times are `Int` milliseconds (JS `new Date().getTime()`);
* the watchdog tick `active` becomes a pure function from its inputs
  (current clock, local `last_active`, the server-reported last-active value,
  and the current location path) to the new `last_active` and the list of
  observable actions it performs, with the `Auth.getlastactive` callback
  inlined (the server response is a parameter);
* the title-blink closure `toggletitle` becomes a step function on an
  explicit blink state;
* the auth gate `Auth.auth` becomes a function from the outcome of
  `Auth.required` to the list of effects it performs;
* cookies are byte-level: the browser jar is a list of (name, value) byte
  strings, `document.cookie` reads serialize it, and the helpers reproduce
  the source's `encodeURIComponent` / regex-scan / expiry behaviour.
-/

namespace Core

/-- `check_timeout` from core.js: `300 * 1000` ms. -/
def check_timeout : Int := 300 * 1000

/-- `auth_timeout` from core.js: `2500 * 1000` ms. -/
def auth_timeout : Int := 2500 * 1000

/-- Observable actions performed by the watchdog tick and the renew handler. -/
inductive Action where
  /-- a call to `Auth.required()` (lightweight re-authorization) -/
  | authRequired : Action
  /-- `Timeout(active, delay, false, true, '_authtimeout')` -/
  | scheduleTick (delay : Int) : Action
  /-- the first `toggletitle()` call: title blinking begins -/
  | startBlink : Action
  /-- installing `$rootScope._authrenew` -/
  | setAuthRenew : Action
  /-- `$('#_authconfirm').modal()`: the blocking confirmation modal opens -/
  | openModal : Action
  deriving DecidableEq, Repr

/-- Result of one watchdog tick: the new `last_active` and the actions taken. -/
structure TickResult where
  last_active : Int
  actions : List Action
  deriving DecidableEq, Repr

/-- The watchdog tick `active` from core.js, with the `Auth.getlastactive`
callback inlined: `serverLastActive` is the unix-epoch-seconds integer the
server reports (the source multiplies it by 1000).  `path` is
`$location.path()`.  Mirrors:

* `if (now - last_active < check_timeout) Auth.required();`
* `else if (now - last_active > auth_timeout)` set `stop_check`, fetch the
  server value; if `now - lastactive > auth_timeout` start the blink,
  install `_authrenew` and open the modal, else adopt the server value and
  reschedule;
* finally `if (!stop_check && $location.path() != '/') Timeout(active, ...)`. -/
def active (last_active now serverLastActive : Int) (path : String) : TickResult :=
  if now - last_active < check_timeout then
    { last_active := last_active
      actions := [Action.authRequired] ++
        (if path ≠ "/" then [Action.scheduleTick check_timeout] else []) }
  else if now - last_active > auth_timeout then
    let lastactive := serverLastActive * 1000
    if now - lastactive > auth_timeout then
      { last_active := last_active
        actions := [Action.startBlink, Action.setAuthRenew, Action.openModal] }
    else
      { last_active := lastactive
        actions := [Action.scheduleTick check_timeout] }
  else
    { last_active := last_active
      actions := if path ≠ "/" then [Action.scheduleTick check_timeout] else [] }

/-- `blinks` from core.js. -/
def blinks : List String := ["登录超时", "!!!!!!!!"]

/-- State of the `toggletitle` closure: `blink_i`, `stop_blink` and the
document title `$rootScope.htmlTitle`. -/
structure BlinkState where
  blink_i : Nat
  stop_blink : Bool
  htmlTitle : String
  deriving DecidableEq, Repr

/-- One invocation of `toggletitle` from core.js.  Returns the new state and
the delay of the self-reschedule (`some 1000` for
`Timeout(toggletitle, 1000, false, true, '_authtimeout_title')`), or `none`
when `stop_blink` is set, in which case the old title is restored. -/
def toggletitle (oldHtmlTitle : String) (s : BlinkState) : BlinkState × Option Int :=
  if !s.stop_blink then
    ({ s with htmlTitle := blinks.getD (s.blink_i % 2) s.htmlTitle
              blink_i := s.blink_i + 1 }, some 1000)
  else
    ({ s with htmlTitle := oldHtmlTitle }, none)

/-- The blink state at the moment the watchdog starts blinking:
`blink_i = 0`, `stop_blink = false`, title still the old one. -/
def initBlink (oldHtmlTitle : String) : BlinkState :=
  { blink_i := 0, stop_blink := false, htmlTitle := oldHtmlTitle }

/-- The blink state after `k` invocations of `toggletitle` (the first call is
synchronous, each further call fires 1000 ms later). -/
def blinkIter (oldHtmlTitle : String) : Nat → BlinkState
  | 0 => initBlink oldHtmlTitle
  | k + 1 => (toggletitle oldHtmlTitle (blinkIter oldHtmlTitle k)).1

/-- Result of the `$rootScope._authrenew` confirmation handler. -/
structure RenewResult where
  last_active : Int
  stop_blink : Bool
  actions : List Action
  deriving DecidableEq, Repr

/-- The confirmation handler `$rootScope._authrenew` from core.js:
`last_active = new Date().getTime(); stop_blink = true; Auth.required();
Timeout(active, check_timeout, false, true, '_authtimeout');`. -/
def authrenew (now : Int) : RenewResult :=
  { last_active := now
    stop_blink := true
    actions := [Action.authRequired, Action.scheduleTick check_timeout] }

/-- The `mousemove` handler from core.js: `last_active = new Date().getTime()`. -/
def mousemove_handler (now : Int) : Int := now

/-- The `keydown` handler from core.js: `last_active = new Date().getTime()`. -/
def keydown_handler (now : Int) : Int := now

/-! ## The auth gate `Auth.auth` -/

/-- How the `Auth.required(success, error)` call inside `Auth.auth` comes
back: either the success callback fires with its `authed` boolean, or the
error callback fires with an HTTP status. -/
inductive AuthResponse where
  | completed (authed : Bool) : AuthResponse
  | failed (status : Int) : AuthResponse
  deriving DecidableEq, Repr

/-- Observable effects of one `Auth.auth` invocation. -/
inductive Effect where
  /-- `Message.setInfo(msg, true)` -/
  | setInfo (msg : String) : Effect
  /-- `Message.setInfo(false)`: the info message is cleared -/
  | clearInfo : Effect
  /-- `Message.setError(msg)` -/
  | setError (msg : String) : Effect
  /-- `$location.path(p)`: redirect -/
  | redirect (p : String) : Effect
  /-- `deferred.resolve()` -/
  | resolvePromise : Effect
  /-- `deferred.reject(...)` (never performed by the source) -/
  | rejectPromise : Effect
  deriving DecidableEq, Repr

/-- The error message shown by `Auth.auth` on HTTP 403 (it carries a re-login
link, so the user can dismiss the blocked view by logging in again). -/
def msg403 : String := "身份认证失败，请<a href=\"#/login\">重新登录</a>！"

/-- The error message shown by `Auth.auth` on any other failure. -/
def msgFail : String := "对不起，加载失败！（网络异常或服务器故障）"

/-- `Auth.auth` from core.js, as the list of effects it performs for a given
response of `Auth.required`.  Mirrors: set the loading info; on the success
callback clear the info and resolve only when `authed`; on the error
callback redirect to `/login` with a message when `status == 403`, else show
the failure message. -/
def Auth.auth (r : AuthResponse) : List Effect :=
  Effect.setInfo "正在加载，请稍候..." ::
    (match r with
     | AuthResponse.completed authed =>
        Effect.clearInfo :: (if authed then [Effect.resolvePromise] else [])
     | AuthResponse.failed status =>
        if status = 403 then
          [Effect.setError msg403, Effect.redirect "/login"]
        else
          [Effect.setError msgFail])

/-! ## The route table -/

/-- The path patterns registered with `$routeProvider.when(...)` in core.js,
in registration order. -/
def routePaths : List String :=
  ["/login", "/", "/service/nginx", "/service/apache", "/service/lighttpd",
   "/service/tomcat", "/service/vsftpd", "/service/proftpd",
   "/service/pureftpd", "/service/mysql", "/service/mariadb",
   "/service/redis", "/service/memcache", "/service/mongodb",
   "/service/minio", "/service/php", "/service/sendmail", "/service/ssh",
   "/service/iptables", "/service/cron", "/service/ntp", "/service/named",
   "/service/samba", "/service", "/file", "/file/go#(:path)", "/file/trash",
   "/site", "/site/nginx/:section", "/site/apache/:section", "/database",
   "/database/mysql/db/new", "/database/mysql/db/edit/:section",
   "/database/mysql/user/new", "/database/mysql/user/edit/:section", "/ftp",
   "/utils", "/utils/user", "/utils/process", "/utils/network",
   "/utils/time", "/utils/cron", "/utils/ssl", "/utils/repository",
   "/utils/shell", "/utils/firewall", "/storage", "/storage/remote/:section",
   "/storage/autofm", "/storage/movedata", "/storage/backup",
   "/storage/migrate", "/ecs", "/ecs/index", "/ecs/account", "/ecs/:section",
   "/setting", "/secure", "/plugins", "/plugins/:section", "/log", "/logout",
   "/sorry"]

/-- Split a character list at every `/` (the semantics of splitting a path
string on `/`): `"/a/b"` becomes `["", "a", "b"]`. -/
def splitSlash : List Char → List (List Char)
  | [] => [[]]
  | c :: rest =>
      if c = '/' then [] :: splitSlash rest
      else
        match splitSlash rest with
        | [] => [[c]]
        | s :: ss => (c :: s) :: ss

/-- Angular route-pattern matching, segment by segment: a `:name` segment
matches any non-empty path segment, any other segment must match literally. -/
def pathMatches (pattern path : String) : Bool :=
  let ps := splitSlash pattern.toList
  let ss := splitSlash path.toList
  ps.length = ss.length &&
    (List.zip ps ss).all fun q =>
      (q.1.headD ' ' = ':' && q.2 ≠ []) || q.1 = q.2

/-- Outcome of route resolution: a matched `when` entry, or the `otherwise`
redirect.  There is no error outcome: resolution is total. -/
inductive Resolution where
  | route (pattern : String) : Resolution
  | redirect (target : String) : Resolution
  deriving DecidableEq, Repr

/-- Route resolution against the table of core.js: the first matching `when`
pattern wins; otherwise the `otherwise({redirectTo: '/sorry'})` clause
applies. -/
def resolveRoute (path : String) : Resolution :=
  match routePaths.find? (fun pat => pathMatches pat path) with
  | some pat => Resolution.route pat
  | none => Resolution.redirect "/sorry"

/-! ## Cookie helpers

Strings are modelled as lists of Unicode code points (JS strings; the
hypotheses exclude lone surrogates exactly where the JS built-ins throw on
them); the browser cookie jar is a list of (name, value) pairs, and
`document.cookie` reads see the usual `"n1=v1; n2=v2"` serialization.
`encodeURIComponent` and `decodeURIComponent` follow the ECMAScript
algorithms, with `none` modelling a thrown `URIError`; the regex that
`get_cookie` builds by splicing the raw cookie name into a pattern is
modelled with the `.` metacharacter as an active wildcard, while names
containing any other regex metacharacter (which would further alter the
pattern, or make `new RegExp` throw a `SyntaxError`, e.g. an unbalanced
`(`) lie outside the model's domain and are excluded by the theorems'
hypotheses. -/

/-- Characters that `encodeURIComponent` leaves unescaped:
`A-Z a-z 0-9 - _ . ! ~ * ' ( )`. -/
def uriUnreserved (b : Nat) : Bool :=
  (65 ≤ b && b ≤ 90) || (97 ≤ b && b ≤ 122) || (48 ≤ b && b ≤ 57) ||
  b = 45 || b = 95 || b = 46 || b = 33 || b = 126 || b = 42 || b = 39 ||
  b = 40 || b = 41

/-- ASCII code of the uppercase hex digit for `n < 16`. -/
def hexDigit (n : Nat) : Nat :=
  if n < 10 then 48 + n else 55 + n

/-- Numeric value of an ASCII hex-digit character, if it is one. -/
def hexVal (c : Nat) : Option Nat :=
  if 48 ≤ c ∧ c ≤ 57 then some (c - 48)
  else if 65 ≤ c ∧ c ≤ 70 then some (c - 55)
  else if 97 ≤ c ∧ c ≤ 102 then some (c - 87)
  else none

/-- The UTF-8 bytes of a Unicode scalar value. -/
def utf8Bytes (cp : Nat) : List Nat :=
  if cp < 128 then [cp]
  else if cp < 2048 then [192 + cp / 64, 128 + cp % 64]
  else if cp < 65536 then
    [224 + cp / 4096, 128 + cp / 64 % 64, 128 + cp % 64]
  else
    [240 + cp / 262144, 128 + cp / 4096 % 64, 128 + cp / 64 % 64,
     128 + cp % 64]

/-- The `%XY` escape of one byte, with uppercase hex digits. -/
def escByte (b : Nat) : List Nat :=
  [37, hexDigit (b / 16), hexDigit (b % 16)]

/-- The escapes of a byte sequence, concatenated. -/
def escAll : List Nat → List Nat
  | [] => []
  | b :: bs => escByte b ++ escAll bs

/-- JS `encodeURIComponent`: unreserved characters pass through, every
other code point is escaped as the `%XY` escapes of its UTF-8 bytes;
`none` models the `URIError` thrown on a lone surrogate. -/
def encodeURIComponent : List Nat → Option (List Nat)
  | [] => some []
  | c :: rest =>
      if 55296 ≤ c ∧ c ≤ 57343 then none
      else
        Option.map
          (fun e => (if uriUnreserved c then [c] else escAll (utf8Bytes c)) ++ e)
          (encodeURIComponent rest)

/-- A piece of a percent-encoded string: a plain character, or the byte
denoted by one `%XY` escape. -/
inductive UriToken where
  | chr (c : Nat) : UriToken
  | esc (b : Nat) : UriToken
  deriving DecidableEq, Repr

/-- Split a percent-encoded string into plain characters and escape bytes:
every `%` must start a `%XY` escape with two hex digits, else the string is
malformed (`none`, a `URIError`). -/
def pctTokens : List Nat → Option (List UriToken)
  | [] => some []
  | c :: rest =>
      if c = 37 then
        match rest with
        | h :: l :: rest2 =>
            match hexVal h, hexVal l with
            | some hv, some lv =>
                Option.map (fun ts => UriToken.esc (hv * 16 + lv) :: ts)
                  (pctTokens rest2)
            | _, _ => none
        | _ => none
      else Option.map (fun ts => UriToken.chr c :: ts) (pctTokens rest)

mutual

/-- Decode a token stream: each escape run must be a valid UTF-8 encoding
of a Unicode scalar value — lead bytes `00..7F`, `C2..DF`, `E0..EF` or
`F0..F4`, continuation bytes `80..BF`, and no overlong, surrogate or
out-of-range result; any violation is a `URIError` (`none`).  The helpers
`decode2`, `decode3` and `decode4` read the continuation escapes of a two-,
three- or four-byte sequence. -/
def decodeTokens : List UriToken → Option (List Nat)
  | [] => some []
  | UriToken.chr c :: ts => Option.map (fun d => c :: d) (decodeTokens ts)
  | UriToken.esc b0 :: ts =>
      if b0 < 128 then Option.map (fun d => b0 :: d) (decodeTokens ts)
      else if 194 ≤ b0 ∧ b0 ≤ 223 then decode2 b0 ts
      else if 224 ≤ b0 ∧ b0 ≤ 239 then decode3 b0 ts
      else if 240 ≤ b0 ∧ b0 ≤ 244 then decode4 b0 ts
      else none

/-- Continuation of a two-byte sequence with lead byte `b0`. -/
def decode2 : Nat → List UriToken → Option (List Nat)
  | b0, UriToken.esc b1 :: ts =>
      if 128 ≤ b1 ∧ b1 ≤ 191 then
        Option.map (fun d => ((b0 - 192) * 64 + (b1 - 128)) :: d)
          (decodeTokens ts)
      else none
  | _, _ => none

/-- Continuations of a three-byte sequence with lead byte `b0`. -/
def decode3 : Nat → List UriToken → Option (List Nat)
  | b0, UriToken.esc b1 :: UriToken.esc b2 :: ts =>
      if 128 ≤ b1 ∧ b1 ≤ 191 ∧ 128 ≤ b2 ∧ b2 ≤ 191 then
        let cp := (b0 - 224) * 4096 + (b1 - 128) * 64 + (b2 - 128)
        if 2048 ≤ cp ∧ ¬ (55296 ≤ cp ∧ cp ≤ 57343) then
          Option.map (fun d => cp :: d) (decodeTokens ts)
        else none
      else none
  | _, _ => none

/-- Continuations of a four-byte sequence with lead byte `b0`. -/
def decode4 : Nat → List UriToken → Option (List Nat)
  | b0, UriToken.esc b1 :: UriToken.esc b2 :: UriToken.esc b3 :: ts =>
      if 128 ≤ b1 ∧ b1 ≤ 191 ∧ 128 ≤ b2 ∧ b2 ≤ 191 ∧
          128 ≤ b3 ∧ b3 ≤ 191 then
        let cp := (b0 - 240) * 262144 + (b1 - 128) * 4096 +
          (b2 - 128) * 64 + (b3 - 128)
        if 65536 ≤ cp ∧ cp ≤ 1114111 then
          Option.map (fun d => cp :: d) (decodeTokens ts)
        else none
      else none
  | _, _ => none

end

/-- JS `decodeURIComponent` (the ECMAScript Decode algorithm): split the
string into characters and `%XY` escape bytes, then decode every escape run
as UTF-8; `none` models a thrown `URIError` (malformed escape, stray or
wrong continuation byte, overlong form, surrogate or out-of-range code
point). -/
def decodeURIComponent (s : List Nat) : Option (List Nat) :=
  Option.bind (pctTokens s) decodeTokens

/-- The browser cookie jar: a list of (name, value) strings. -/
abbrev Jar : Type := List (List Nat × List Nat)

/-- Browser semantics of an assignment `document.cookie = "name=value;
expires=E"`: an expiry in the past removes the cookie, otherwise the cookie
is stored (overwriting in place, or appended when new). -/
def jarAssign (jar : Jar) (name value : List Nat) (expired : Bool) : Jar :=
  if expired then List.filter (fun e => !(e.1 == name)) jar
  else if List.any jar (fun e => e.1 == name) then
    List.map (fun e => if e.1 == name then (name, value) else e) jar
  else jar ++ [(name, value)]

/-- The string a `document.cookie` read returns: `"n1=v1; n2=v2; ..."`
(61 is `=`, 59 is `;`, 32 is a space). -/
def serializeJar : Jar → List Nat
  | [] => []
  | [e] => e.1 ++ [61] ++ e.2
  | e :: rest => e.1 ++ [61] ++ e.2 ++ [59, 32] ++ serializeJar rest

/-- JS regex metacharacters, active when `get_cookie` splices the raw
cookie name into its pattern: `\\ ^ $ . * + ? ( ) [ ] | \x7b \x7d`. -/
def regexMeta (b : Nat) : Bool :=
  b = 92 || b = 94 || b = 36 || b = 46 || b = 42 || b = 43 || b = 63 ||
  b = 40 || b = 41 || b = 91 || b = 93 || b = 124 || b = 123 || b = 125

/-- Match of the pattern built from the raw cookie name against the head of
a string, one character per pattern character: the spliced `.` is an active
regex wildcard (matching any character except a line terminator), every
other modelled character matches literally.  Returns the rest of the string
after the match. -/
def matchName : List Nat → List Nat → Option (List Nat)
  | [], s => some s
  | _ :: _, [] => none
  | p :: ps, c :: cs =>
      if (p = 46 ∧ ¬ (c = 10 ∨ c = 13 ∨ c = 8232 ∨ c = 8233)) ∨ p = c then
        matchName ps cs
      else none

/-- Match of the regex fragment `name=([^;]*)` at the start of `s` (the
name pattern, a literal `=`, then the capture group: everything up to the
next `;` or the end). -/
def matchAt (name s : List Nat) : Option (List Nat) :=
  Option.map (fun r => List.takeWhile (fun b => !(b == 59)) r)
    (matchName (name ++ [61]) s)

/-- Scan for the leftmost space followed by `name=([^;]*)` (the ` ` branch
of the regex alternation `(^| )`). -/
def scanAfterSpace (name : List Nat) : List Nat → Option (List Nat)
  | [] => none
  | b :: rest =>
      if b = 32 then
        match matchAt name rest with
        | some v => some v
        | none => scanAfterSpace name rest
      else scanAfterSpace name rest

/-- First match of the JS regex `(^| )name=([^;]*)(;|$)` against `s`,
returning the `([^;]*)` capture: position 0 is tried first (the `^` branch),
then every position after a space. -/
def cookieMatch (name s : List Nat) : Option (List Nat) :=
  match matchAt name s with
  | some v => some v
  | none => scanAfterSpace name s

/-- Outcome of a `get_cookie` call: a decoded value, JS `null`, or a
`URIError` thrown by `decodeURIComponent` on a malformed cookie value. -/
inductive GetResult where
  | value (v : List Nat) : GetResult
  | null : GetResult
  | uriError : GetResult
  deriving DecidableEq, Repr

/-- `get_cookie` from core.js: match
`new RegExp('(^| )' + name + '=([^;]*)(;|$)')` against `document.cookie`
and return `decodeURIComponent(arr[2])` — which may throw — else `null`. -/
def get_cookie (jar : Jar) (name : List Nat) : GetResult :=
  match cookieMatch name (serializeJar jar) with
  | some raw =>
      match decodeURIComponent raw with
      | some v => GetResult.value v
      | none => GetResult.uriError
  | none => GetResult.null

/-- `set_cookie` from core.js: assign
`name + '=' + encodeURIComponent(value) + ';expires=' + <now + 30 days>`
to `document.cookie` (a future expiry: the cookie is stored); `none` models
the `URIError` `encodeURIComponent` throws on a lone surrogate, in which
case the assignment never happens. -/
def set_cookie (jar : Jar) (name value : List Nat) : Option Jar :=
  Option.map (fun ev => jarAssign jar name ev false)
    (encodeURIComponent value)

/-- `del_cookie` from core.js: read `cval = get_cookie(name)`; when it is
not `null`, assign `name + "=" + cval + ";expires=" + <now - 1 ms>` to
`document.cookie` (a past expiry: the cookie is removed).  A `URIError`
from `get_cookie` propagates (`none`): nothing is written. -/
def del_cookie (jar : Jar) (name : List Nat) : Option Jar :=
  match get_cookie jar name with
  | GetResult.value cval => some (jarAssign jar name cval true)
  | GetResult.null => some jar
  | GetResult.uriError => none

/-- Cookie-name well-formedness: non-empty, no `;`, no space, no `=`. -/
def goodName (n : List Nat) : Prop :=
  n ≠ [] ∧ ∀ b ∈ n, b ≠ 59 ∧ b ≠ 32 ∧ b ≠ 61

/-- A name that is moreover free of regex metacharacters, so the pattern
`get_cookie` builds from it matches it literally. -/
def safeName (n : List Nat) : Prop :=
  goodName n ∧ ∀ b ∈ n, regexMeta b = false

/-- Cookie-value well-formedness in the jar: no `;`, no space, and the
percent-escapes decode (so reading the cookie does not throw). -/
def goodValue (v : List Nat) : Prop :=
  (∀ b ∈ v, b ≠ 59 ∧ b ≠ 32) ∧ (decodeURIComponent v).isSome = true

/-- Jar well-formedness: every entry has a well-formed name and value. -/
def goodJar (jar : Jar) : Prop :=
  ∀ e ∈ jar, goodName e.1 ∧ goodValue e.2

/-- A Unicode scalar value: a code point that is not a (lone) surrogate. -/
def scalarValue (c : Nat) : Prop :=
  c < 1114112 ∧ ¬ (55296 ≤ c ∧ c ≤ 57343)

instance : DecidablePred goodName := fun n => by
  unfold goodName
  infer_instance

instance : DecidablePred goodValue := fun v => by
  unfold goodValue
  infer_instance

instance : DecidablePred goodJar := fun jar => by
  unfold goodJar
  infer_instance

instance : DecidablePred safeName := fun n => by
  unfold safeName
  infer_instance

instance : DecidablePred scalarValue := fun c => by
  unfold scalarValue
  infer_instance

/-! ## Watchdog lemmas -/

lemma blinkIter_invariant (t : String) (k : Nat) :
    (blinkIter t k).stop_blink = false ∧ (blinkIter t k).blink_i = k := by
  induction k with
  | zero => exact ⟨rfl, rfl⟩
  | succ n ih =>
    refine ⟨?_, ?_⟩ <;> simp [blinkIter, toggletitle, ih.1, ih.2]

lemma blinkIter_title (t : String) (k : Nat) :
    (blinkIter t (k + 1)).htmlTitle =
      (if k % 2 = 0 then "登录超时" else "!!!!!!!!") := by
  have h := blinkIter_invariant t k
  simp only [blinkIter, toggletitle, h.1, Bool.not_false, if_true, h.2]
  rcases Nat.mod_two_eq_zero_or_one k with h2 | h2 <;> simp [h2, blinks]

lemma blinkIter_reschedules (t : String) (k : Nat) :
    (toggletitle t (blinkIter t k)).2 = some 1000 := by
  have h := blinkIter_invariant t k
  simp [toggletitle, h.1]

lemma not_fresh_of_expired {la now : Int} (h : now - la > auth_timeout) :
    ¬ (now - la < check_timeout) := by
  simp only [check_timeout, auth_timeout] at *
  omega

/-! ## Claim theorems for the watchdog -/

/-- C1: on a watchdog tick where both the client idle time and the idle time
derived from the server-reported last-active value exceed `auth_timeout`,
the tick starts the title blink, installs the renew handler and opens the
blocking confirmation modal; the blink alternates the document title between
`登录超时` and `!!!!!!!!`, rescheduling itself every 1000 ms. -/
theorem C1_expired_opens_modal_and_blinks
    (la now sla : Int) (path : String)
    (h1 : now - la > auth_timeout) (h2 : now - sla * 1000 > auth_timeout) :
    (active la now sla path).actions
        = [Action.startBlink, Action.setAuthRenew, Action.openModal] ∧
      Action.openModal ∈ (active la now sla path).actions ∧
      ∀ (t : String) (k : Nat),
        (blinkIter t (k + 1)).htmlTitle
            = (if k % 2 = 0 then "登录超时" else "!!!!!!!!") ∧
          (toggletitle t (blinkIter t k)).2 = some 1000 := by
  have hc := not_fresh_of_expired h1
  have hact : (active la now sla path).actions
      = [Action.startBlink, Action.setAuthRenew, Action.openModal] := by
    simp only [active, if_neg hc, if_pos h1, if_pos h2]
  exact ⟨hact, by simp [hact],
    fun t k => ⟨blinkIter_title t k, blinkIter_reschedules t k⟩⟩

/-- Witness for C1 at `la = 0`, `now = 2500001`, `sla = 0`, `path = "/x"`. -/
theorem C1_witness :
    ((2500001 : Int) - 0 > auth_timeout ∧ (2500001 : Int) - 0 * 1000 > auth_timeout) ∧
      ((active 0 2500001 0 "/x").actions
          = [Action.startBlink, Action.setAuthRenew, Action.openModal] ∧
        Action.openModal ∈ (active 0 2500001 0 "/x").actions ∧
        ∀ (t : String) (k : Nat),
          (blinkIter t (k + 1)).htmlTitle
              = (if k % 2 = 0 then "登录超时" else "!!!!!!!!") ∧
            (toggletitle t (blinkIter t k)).2 = some 1000) :=
  ⟨⟨by decide, by decide⟩,
    C1_expired_opens_modal_and_blinks 0 2500001 0 "/x" (by decide) (by decide)⟩

/-- C2: on a watchdog tick where the client idle time exceeds `auth_timeout`
but the idle time derived from the server-reported last-active value does
not, the tick adopts the server value (in milliseconds) as the local
`last_active`, reschedules the timer with interval `check_timeout`, and does
not open the confirmation modal. -/
theorem C2_server_resync
    (la now sla : Int) (path : String)
    (h1 : now - la > auth_timeout) (h2 : ¬ (now - sla * 1000 > auth_timeout)) :
    (active la now sla path).last_active = sla * 1000 ∧
      (active la now sla path).actions = [Action.scheduleTick check_timeout] ∧
      Action.openModal ∉ (active la now sla path).actions := by
  have hc := not_fresh_of_expired h1
  have hact : active la now sla path =
      { last_active := sla * 1000
        actions := [Action.scheduleTick check_timeout] } := by
    simp only [active, if_neg hc, if_pos h1, if_neg h2]
  refine ⟨by rw [hact], by rw [hact], ?_⟩
  rw [hact]
  simp

/-- Witness for C2 at `la = 0`, `now = 2500001`, `sla = 1`, `path = "/"`. -/
theorem C2_witness :
    ((2500001 : Int) - 0 > auth_timeout ∧
        ¬ ((2500001 : Int) - 1 * 1000 > auth_timeout)) ∧
      ((active 0 2500001 1 "/").last_active = 1 * 1000 ∧
        (active 0 2500001 1 "/").actions = [Action.scheduleTick check_timeout] ∧
        Action.openModal ∉ (active 0 2500001 1 "/").actions) :=
  ⟨⟨by decide, by decide⟩, C2_server_resync 0 2500001 1 "/" (by decide) (by decide)⟩

/-- C3: the confirmation handler `_authrenew` sets `last_active` to the
current time, sets `stop_blink` (so that the next `toggletitle` call
restores the original title and stops rescheduling itself), issues exactly
one `Auth.required()` call, and reschedules the watchdog timer with interval
`check_timeout`. -/
theorem C3_confirm_renews (now : Int) (oldTitle : String) (s : BlinkState) :
    (authrenew now).last_active = now ∧
      (authrenew now).stop_blink = true ∧
      (toggletitle oldTitle
          { s with stop_blink := (authrenew now).stop_blink }).1.htmlTitle
        = oldTitle ∧
      (toggletitle oldTitle
          { s with stop_blink := (authrenew now).stop_blink }).2 = none ∧
      (authrenew now).actions
        = [Action.authRequired, Action.scheduleTick check_timeout] := by
  refine ⟨rfl, rfl, ?_, ?_, rfl⟩ <;> simp [toggletitle, authrenew]

/-- Witness for C3 at `now = 42`, old title `"InPanel"`, a blinking state. -/
theorem C3_witness :
    (authrenew 42).last_active = 42 ∧
      (authrenew 42).stop_blink = true ∧
      (toggletitle "InPanel"
          { blink_i := 5, stop_blink := (authrenew 42).stop_blink
            htmlTitle := "!!!!!!!!" }).1.htmlTitle = "InPanel" ∧
      (toggletitle "InPanel"
          { blink_i := 5, stop_blink := (authrenew 42).stop_blink
            htmlTitle := "!!!!!!!!" }).2 = none ∧
      (authrenew 42).actions
        = [Action.authRequired, Action.scheduleTick check_timeout] :=
  C3_confirm_renews 42 "InPanel" { blink_i := 5, stop_blink := false, htmlTitle := "!!!!!!!!" }

/-- C4 counterexample: a tick taken away from the main view (path `/panel`)
outside the server-checking branch does reschedule the timer, and the same
tick taken on the main view `/` does not: end-of-tick rescheduling is gated
on `$location.path() != '/'`, the opposite of the claim. -/
theorem C4_counterexample :
    (active 0 0 0 "/panel").actions
        = [Action.authRequired, Action.scheduleTick check_timeout] ∧
      (active 0 0 0 "/").actions = [Action.authRequired] := by
  constructor <;> decide

/-- C4 (amended): a watchdog tick outside the server-checking branch
reschedules the timer at the end of the tick iff the current location is
not the main view `/`. -/
theorem C4_reschedule_iff_not_main
    (la now sla : Int) (path : String) (h : ¬ (now - la > auth_timeout)) :
    Action.scheduleTick check_timeout ∈ (active la now sla path).actions
      ↔ path ≠ "/" := by
  by_cases hf : now - la < check_timeout
  · simp only [active, if_pos hf]
    by_cases hp : path = "/" <;> simp [hp]
  · simp only [active, if_neg hf, if_neg h]
    by_cases hp : path = "/" <;> simp [hp]

/-- Witness for C4 (amended) at `la = 0`, `now = 0`, `sla = 0`,
`path = "/panel"`. -/
theorem C4_witness :
    ¬ ((0 : Int) - 0 > auth_timeout) ∧
      (Action.scheduleTick check_timeout ∈ (active 0 0 0 "/panel").actions
        ↔ "/panel" ≠ "/") :=
  ⟨by decide, C4_reschedule_iff_not_main 0 0 0 "/panel" (by decide)⟩

/-- C5: assuming the clock reading `now` is at least the currently stored
`last_active`, every write to `last_active` — the mouse-move handler, the
key-down handler, the watchdog tick (including its adoption of the
server-reported value), and the confirmation reset — yields a value at least
the old one. -/
theorem C5_last_active_monotone
    (la now sla : Int) (path : String) (h : la ≤ now) :
    la ≤ mousemove_handler now ∧
      la ≤ keydown_handler now ∧
      la ≤ (active la now sla path).last_active ∧
      la ≤ (authrenew now).last_active := by
  refine ⟨h, h, ?_, h⟩
  by_cases hf : now - la < check_timeout
  · simp only [active, if_pos hf]
    exact le_refl la
  · by_cases hx : now - la > auth_timeout
    · by_cases hs : now - sla * 1000 > auth_timeout
      · simp only [active, if_neg hf, if_pos hx, if_pos hs]
        exact le_refl la
      · simp only [active, if_neg hf, if_pos hx, if_neg hs]
        simp only [auth_timeout] at hx hs
        omega
    · simp only [active, if_neg hf, if_neg hx]
      exact le_refl la

/-- Witness for C5 at `la = 0`, `now = 5`, `sla = 0`, `path = "/"`. -/
theorem C5_witness :
    (0 : Int) ≤ 5 ∧
      ((0 : Int) ≤ mousemove_handler 5 ∧
        (0 : Int) ≤ keydown_handler 5 ∧
        (0 : Int) ≤ (active 0 5 0 "/").last_active ∧
        (0 : Int) ≤ (authrenew 5).last_active) :=
  ⟨by decide, C5_last_active_monotone 0 5 0 "/" (by decide)⟩

/-- C6: when the auth gate's check fails with HTTP status 403, the gate
shows the re-login error message and redirects to `/login`; when it fails
with any other status, it shows the load-failure error message and performs
no redirect. -/
theorem C6_auth_gate_failure (status : Int) :
    (status = 403 →
        Effect.setError msg403 ∈ Auth.auth (AuthResponse.failed status) ∧
          Effect.redirect "/login" ∈ Auth.auth (AuthResponse.failed status)) ∧
      (status ≠ 403 →
        Effect.setError msgFail ∈ Auth.auth (AuthResponse.failed status) ∧
          ∀ p, Effect.redirect p ∉ Auth.auth (AuthResponse.failed status)) := by
  constructor
  · intro h
    subst h
    simp [Auth.auth]
  · intro h
    simp [Auth.auth, h]

/-- Witness for C6 at the statuses 403 and 500. -/
theorem C6_witness :
    (Effect.setError msg403 ∈ Auth.auth (AuthResponse.failed 403) ∧
        Effect.redirect "/login" ∈ Auth.auth (AuthResponse.failed 403)) ∧
      (Effect.setError msgFail ∈ Auth.auth (AuthResponse.failed 500) ∧
        ∀ p, Effect.redirect p ∉ Auth.auth (AuthResponse.failed 500)) :=
  ⟨(C6_auth_gate_failure 403).1 rfl, (C6_auth_gate_failure 500).2 (by decide)⟩

/-- C7 counterexample: a tick with client idle time 100000 ms
(`< check_timeout`) taken on the main view `/` issues the re-authorization
call but does not reschedule the timer, because end-of-tick rescheduling
only happens when `$location.path() != '/'`. -/
theorem C7_counterexample :
    (active 0 100000 0 "/").actions = [Action.authRequired] := by
  decide

/-- C7 (amended): on a watchdog tick where the client idle time is strictly
below `check_timeout`, the watchdog issues exactly one re-authorization
call, does not open the confirmation modal, and reschedules the timer iff
the current location is not the main view `/`. -/
theorem C7_fresh_tick
    (la now sla : Int) (path : String) (h : now - la < check_timeout) :
    List.count Action.authRequired (active la now sla path).actions = 1 ∧
      Action.openModal ∉ (active la now sla path).actions ∧
      (Action.scheduleTick check_timeout ∈ (active la now sla path).actions
        ↔ path ≠ "/") := by
  simp only [active, if_pos h]
  by_cases hp : path = "/" <;> simp [hp, List.count_cons]

/-- Witness for C7 (amended) at `la = 0`, `now = 100000`, `sla = 0`,
`path = "/file"`. -/
theorem C7_witness :
    (100000 : Int) - 0 < check_timeout ∧
      (List.count Action.authRequired (active 0 100000 0 "/file").actions = 1 ∧
        Action.openModal ∉ (active 0 100000 0 "/file").actions ∧
        (Action.scheduleTick check_timeout ∈ (active 0 100000 0 "/file").actions
          ↔ "/file" ≠ "/")) :=
  ⟨by decide, C7_fresh_tick 0 100000 0 "/file" (by decide)⟩

/-- C9: every path matched by none of the registered route patterns
resolves to the `otherwise` redirect to `/sorry`; resolution is total, so
no error outcome exists. -/
theorem C9_unmatched_redirects_sorry (path : String)
    (h : ∀ pat ∈ routePaths, pathMatches pat path = false) :
    resolveRoute path = Resolution.redirect "/sorry" := by
  rw [resolveRoute]
  rw [List.find?_eq_none.mpr (by intro pat hp; simp [h pat hp])]

/-- Witness for C9 at the unregistered path `/nonexistent`. -/
theorem C9_witness :
    (∀ pat ∈ routePaths, pathMatches pat "/nonexistent" = false) ∧
      resolveRoute "/nonexistent" = Resolution.redirect "/sorry" :=
  ⟨by decide, C9_unmatched_redirects_sorry "/nonexistent" (by decide)⟩

/-- C10: when `Auth.required` completes through the success callback with
`authed = false`, the gate only sets and clears the loading info message: it
neither resolves nor rejects its promise, performs no redirect, and shows no
error message. -/
theorem C10_unauthed_blocks_silently :
    Auth.auth (AuthResponse.completed false)
        = [Effect.setInfo "正在加载，请稍候...", Effect.clearInfo] ∧
      Effect.resolvePromise ∉ Auth.auth (AuthResponse.completed false) ∧
      Effect.rejectPromise ∉ Auth.auth (AuthResponse.completed false) ∧
      (∀ p, Effect.redirect p ∉ Auth.auth (AuthResponse.completed false)) ∧
      ∀ m, Effect.setError m ∉ Auth.auth (AuthResponse.completed false) := by
  refine ⟨rfl, by simp [Auth.auth], by simp [Auth.auth], ?_, ?_⟩ <;>
    intro x <;> simp [Auth.auth]

/-- Witness for C10: the concrete effect list of the silent branch. -/
theorem C10_witness :
    Auth.auth (AuthResponse.completed false)
      = [Effect.setInfo "正在加载，请稍候...", Effect.clearInfo] :=
  C10_unauthed_blocks_silently.1

/-! ## Cookie lemmas -/

lemma hexVal_hexDigit : ∀ n < 16, hexVal (hexDigit n) = some n := by decide

lemma uriUnreserved_good {b : Nat} (h : uriUnreserved b = true) :
    b ≠ 37 ∧ b ≠ 59 ∧ b ≠ 32 := by
  refine ⟨?_, ?_, ?_⟩ <;> rintro rfl <;> simp [uriUnreserved] at h

lemma hexDigit_good (n : Nat) : hexDigit n ≠ 59 ∧ hexDigit n ≠ 32 := by
  unfold hexDigit
  split <;> omega

lemma utf8Bytes_lt {c : Nat} (hc : c < 1114112) :
    ∀ b ∈ utf8Bytes c, b < 256 := by
  intro b hb
  unfold utf8Bytes at hb
  split at hb
  · simp at hb; omega
  · split at hb
    · simp at hb; rcases hb with rfl | rfl <;> omega
    · split at hb
      · simp at hb; rcases hb with rfl | rfl | rfl <;> omega
      · simp at hb; rcases hb with rfl | rfl | rfl | rfl <;> omega

lemma escAll_chars (bs : List Nat) : ∀ b ∈ escAll bs, b ≠ 59 ∧ b ≠ 32 := by
  induction bs with
  | nil => intro b hb; simp [escAll] at hb
  | cons x xs ih =>
    intro b hb
    rcases List.mem_append.mp hb with hb | hb
    · simp only [escByte, List.mem_cons] at hb
      rcases hb with rfl | rfl | rfl | hb
      · omega
      · exact hexDigit_good _
      · exact hexDigit_good _
      · simp at hb
    · exact ih b hb

lemma pctTokens_chr {c : Nat} (t : List Nat) (h : c ≠ 37) :
    pctTokens (c :: t)
      = Option.map (fun ts => UriToken.chr c :: ts) (pctTokens t) := by
  rw [pctTokens.eq_def]
  simp [h]

lemma pctTokens_esc {b : Nat} (t : List Nat) (hb : b < 256) :
    pctTokens (escByte b ++ t)
      = Option.map (fun ts => UriToken.esc b :: ts) (pctTokens t) := by
  have h1 : hexVal (hexDigit (b / 16)) = some (b / 16) :=
    hexVal_hexDigit _ (by omega)
  have h2 : hexVal (hexDigit (b % 16)) = some (b % 16) :=
    hexVal_hexDigit _ (by omega)
  have hb0 : b / 16 * 16 + b % 16 = b := by omega
  rw [show escByte b ++ t
      = 37 :: hexDigit (b / 16) :: hexDigit (b % 16) :: t from rfl]
  rw [pctTokens.eq_def]
  simp [h1, h2, hb0]

lemma pctTokens_escAll (bs : List Nat) (hbs : ∀ b ∈ bs, b < 256)
    (t : List Nat) :
    pctTokens (escAll bs ++ t)
      = Option.map (fun ts => List.map UriToken.esc bs ++ ts)
          (pctTokens t) := by
  induction bs with
  | nil =>
    cases h : pctTokens t <;> simp [escAll, h]
  | cons x xs ih =>
    rw [show escAll (x :: xs) ++ t = escByte x ++ (escAll xs ++ t) by
      simp [escAll, List.append_assoc]]
    rw [pctTokens_esc _ (hbs x (List.mem_cons_self x xs)),
      ih fun b hb => hbs b (List.mem_cons_of_mem x hb)]
    cases h : pctTokens t <;> simp [h]

lemma decodeTokens_chr (c : Nat) (ts : List UriToken) :
    decodeTokens (UriToken.chr c :: ts)
      = Option.map (fun d => c :: d) (decodeTokens ts) := by
  simp [decodeTokens]

lemma decodeTokens_esc1 {b : Nat} (hb : b < 128) (ts : List UriToken) :
    decodeTokens (UriToken.esc b :: ts)
      = Option.map (fun d => b :: d) (decodeTokens ts) := by
  simp [decodeTokens, hb]

lemma decodeTokens_esc2 {b0 b1 : Nat} (h0 : 194 ≤ b0 ∧ b0 ≤ 223)
    (h1 : 128 ≤ b1 ∧ b1 ≤ 191) (ts : List UriToken) :
    decodeTokens (UriToken.esc b0 :: UriToken.esc b1 :: ts)
      = Option.map (fun d => ((b0 - 192) * 64 + (b1 - 128)) :: d)
          (decodeTokens ts) := by
  have hn : ¬ (b0 < 128) := by omega
  simp [decodeTokens, decode2, hn, h0.1, h0.2, h1.1, h1.2]

lemma decodeTokens_esc3 {b0 b1 b2 : Nat} (h0 : 224 ≤ b0 ∧ b0 ≤ 239)
    (h1 : 128 ≤ b1 ∧ b1 ≤ 191) (h2 : 128 ≤ b2 ∧ b2 ≤ 191)
    (hv : 2048 ≤ (b0 - 224) * 4096 + (b1 - 128) * 64 + (b2 - 128) ∧
      ¬ (55296 ≤ (b0 - 224) * 4096 + (b1 - 128) * 64 + (b2 - 128) ∧
        (b0 - 224) * 4096 + (b1 - 128) * 64 + (b2 - 128) ≤ 57343))
    (ts : List UriToken) :
    decodeTokens
        (UriToken.esc b0 :: UriToken.esc b1 :: UriToken.esc b2 :: ts)
      = Option.map
          (fun d => ((b0 - 224) * 4096 + (b1 - 128) * 64 + (b2 - 128)) :: d)
          (decodeTokens ts) := by
  have hna : ¬ (b0 < 128) := by omega
  have hnb : ¬ (194 ≤ b0 ∧ b0 ≤ 223) := by omega
  simp [decodeTokens, decode3, hna, hnb, h0.1, h0.2, h1.1, h1.2, h2.1, h2.2,
    hv.1, hv.2]

lemma decodeTokens_esc4 {b0 b1 b2 b3 : Nat} (h0 : 240 ≤ b0 ∧ b0 ≤ 244)
    (h1 : 128 ≤ b1 ∧ b1 ≤ 191) (h2 : 128 ≤ b2 ∧ b2 ≤ 191)
    (h3 : 128 ≤ b3 ∧ b3 ≤ 191)
    (hv : 65536 ≤ (b0 - 240) * 262144 + (b1 - 128) * 4096 +
        (b2 - 128) * 64 + (b3 - 128) ∧
      (b0 - 240) * 262144 + (b1 - 128) * 4096 + (b2 - 128) * 64 + (b3 - 128)
        ≤ 1114111)
    (ts : List UriToken) :
    decodeTokens (UriToken.esc b0 :: UriToken.esc b1 :: UriToken.esc b2 ::
        UriToken.esc b3 :: ts)
      = Option.map
          (fun d => ((b0 - 240) * 262144 + (b1 - 128) * 4096 +
            (b2 - 128) * 64 + (b3 - 128)) :: d)
          (decodeTokens ts) := by
  have hna : ¬ (b0 < 128) := by omega
  have hnb : ¬ (194 ≤ b0 ∧ b0 ≤ 223) := by omega
  have hnc : ¬ (224 ≤ b0 ∧ b0 ≤ 239) := by omega
  simp [decodeTokens, decode4, hna, hnb, hnc, h0.1, h0.2, h1.1, h1.2, h2.1,
    h2.2, h3.1, h3.2, hv.1, hv.2]

lemma decodeTokens_utf8 {c : Nat} (hc1 : c < 1114112)
    (hc2 : ¬ (55296 ≤ c ∧ c ≤ 57343)) (ts : List UriToken) :
    decodeTokens (List.map UriToken.esc (utf8Bytes c) ++ ts)
      = Option.map (fun d => c :: d) (decodeTokens ts) := by
  by_cases h1 : c < 128
  · rw [show utf8Bytes c = [c] from by rw [utf8Bytes, if_pos h1]]
    rw [List.map_cons, List.map_nil, List.cons_append, List.nil_append]
    exact decodeTokens_esc1 h1 ts
  · by_cases h2 : c < 2048
    · rw [show utf8Bytes c = [192 + c / 64, 128 + c % 64] from by
        rw [utf8Bytes, if_neg h1, if_pos h2]]
      rw [List.map_cons, List.map_cons, List.map_nil, List.cons_append,
        List.cons_append, List.nil_append]
      rw [decodeTokens_esc2 (by omega) (by omega) ts]
      simp only [show (192 + c / 64 - 192) * 64 + (128 + c % 64 - 128) = c
        from by omega]
    · by_cases h3 : c < 65536
      · rw [show utf8Bytes c
            = [224 + c / 4096, 128 + c / 64 % 64, 128 + c % 64] from by
          rw [utf8Bytes, if_neg h1, if_neg h2, if_pos h3]]
        rw [List.map_cons, List.map_cons, List.map_cons, List.map_nil,
          List.cons_append, List.cons_append, List.cons_append,
          List.nil_append]
        rw [decodeTokens_esc3 (by omega) (by omega) (by omega)
          (by constructor <;> omega) ts]
        simp only [show (224 + c / 4096 - 224) * 4096 +
          (128 + c / 64 % 64 - 128) * 64 + (128 + c % 64 - 128) = c
          from by omega]
      · rw [show utf8Bytes c
            = [240 + c / 262144, 128 + c / 4096 % 64, 128 + c / 64 % 64,
               128 + c % 64] from by
          rw [utf8Bytes, if_neg h1, if_neg h2, if_neg h3]]
        rw [List.map_cons, List.map_cons, List.map_cons, List.map_cons,
          List.map_nil, List.cons_append, List.cons_append,
          List.cons_append, List.cons_append, List.nil_append]
        rw [decodeTokens_esc4 (by omega) (by omega) (by omega) (by omega)
          (by constructor <;> omega) ts]
        simp only [show (240 + c / 262144 - 240) * 262144 +
          (128 + c / 4096 % 64 - 128) * 4096 + (128 + c / 64 % 64 - 128) * 64
          + (128 + c % 64 - 128) = c from by omega]

lemma encode_decode (value : List Nat) (hval : ∀ c ∈ value, scalarValue c) :
    ∃ ev, encodeURIComponent value = some ev ∧
      decodeURIComponent ev = some value ∧ ∀ b ∈ ev, b ≠ 59 ∧ b ≠ 32 := by
  induction value with
  | nil => exact ⟨[], rfl, rfl, by simp⟩
  | cons c rest ih =>
    obtain ⟨er, henc, hdec, hchars⟩ :=
      ih fun x hx => hval x (List.mem_cons_of_mem c hx)
    have hc : scalarValue c := hval c (List.mem_cons_self c rest)
    have hns : ¬ (55296 ≤ c ∧ c ≤ 57343) := hc.2
    obtain ⟨ets, hp, hd⟩ :
        ∃ ets, pctTokens er = some ets ∧ decodeTokens ets = some rest := by
      rw [decodeURIComponent] at hdec
      cases hp : pctTokens er with
      | none => rw [hp] at hdec; simp at hdec
      | some ets =>
        rw [hp] at hdec
        exact ⟨ets, rfl, by simpa using hdec⟩
    refine ⟨(if uriUnreserved c then [c] else escAll (utf8Bytes c)) ++ er,
      ?_, ?_, ?_⟩
    · simp only [encodeURIComponent, if_neg hns, henc, Option.map_some']
    · by_cases hu : uriUnreserved c = true
      · rw [if_pos hu, decodeURIComponent,
          show ([c] ++ er : List Nat) = c :: er from rfl,
          pctTokens_chr er (uriUnreserved_good hu).1, hp,
          Option.map_some', Option.some_bind, decodeTokens_chr, hd,
          Option.map_some']
      · rw [if_neg hu, decodeURIComponent,
          pctTokens_escAll (utf8Bytes c) (utf8Bytes_lt hc.1) er, hp,
          Option.map_some', Option.some_bind,
          decodeTokens_utf8 hc.1 hns ets, hd, Option.map_some']
    · intro b hb
      rcases List.mem_append.mp hb with hb | hb
      · by_cases hu : uriUnreserved c = true
        · rw [if_pos hu] at hb
          simp only [List.mem_singleton] at hb
          subst hb
          exact ⟨(uriUnreserved_good hu).2.1, (uriUnreserved_good hu).2.2⟩
        · rw [if_neg hu] at hb
          exact escAll_chars _ b hb
      · exact hchars b hb

lemma matchName_self : ∀ (p r : List Nat), matchName p (p ++ r) = some r := by
  intro p
  induction p with
  | nil => intro r; rfl
  | cons a ps ih =>
    intro r
    rw [List.cons_append]
    simp only [matchName]
    split
    · exact ih r
    · rename_i hcond
      simp at hcond

lemma matchName_literal_eq (name : List Nat) :
    ∀ (n1 t r : List Nat), (∀ b ∈ name, b ≠ 61 ∧ b ≠ 46) →
      (∀ b ∈ n1, b ≠ 61) →
      matchName (name ++ [61]) (n1 ++ [61] ++ t) = some r → name = n1 := by
  induction name with
  | nil =>
    intro n1 t r _ hn1 h
    cases n1 with
    | nil => rfl
    | cons c cs =>
      exfalso
      simp only [List.nil_append, List.cons_append] at h
      simp only [matchName] at h
      split at h
      · rename_i hcond
        rcases hcond with ⟨h46, _⟩ | hc
        · omega
        · exact hn1 c (List.mem_cons_self c cs) hc.symm
      · exact Option.noConfusion h
  | cons a as ih =>
    intro n1 t r hn hn1 h
    have ha := hn a (List.mem_cons_self a as)
    cases n1 with
    | nil =>
      exfalso
      simp only [List.nil_append, List.cons_append] at h
      simp only [matchName] at h
      split at h
      · rename_i hcond
        rcases hcond with ⟨h46, _⟩ | hc
        · exact ha.2 h46
        · exact ha.1 hc
      · exact Option.noConfusion h
    | cons c cs =>
      simp only [List.cons_append] at h
      simp only [matchName] at h
      split at h
      · rename_i hcond
        have hac : a = c := by
          rcases hcond with ⟨h46, _⟩ | hc
          · exact absurd h46 ha.2
          · exact hc
        subst hac
        have : as = cs :=
          ih cs t r (fun b hb => hn b (List.mem_cons_of_mem a hb))
            (fun b hb => hn1 b (List.mem_cons_of_mem a hb)) h
        rw [this]
      · exact Option.noConfusion h

lemma takeWhile_no59 (v t : List Nat) (hv : ∀ b ∈ v, b ≠ 59) :
    List.takeWhile (fun b => !(b == 59)) (v ++ t)
      = v ++ List.takeWhile (fun b => !(b == 59)) t := by
  induction v with
  | nil => simp
  | cons c cs ih =>
    have hc : (c == 59) = false := by
      simpa using hv c (List.mem_cons_self c cs)
    simp only [List.cons_append, List.takeWhile_cons, hc, Bool.not_false,
      if_true]
    rw [ih fun b hb => hv b (List.mem_cons_of_mem c hb)]

lemma matchAt_self (n1 v1 tail : List Nat) (hv1 : ∀ b ∈ v1, b ≠ 59)
    (htail : tail = [] ∨ ∃ t', tail = 59 :: t') :
    matchAt n1 (n1 ++ [61] ++ (v1 ++ tail)) = some v1 := by
  rw [matchAt, matchName_self (n1 ++ [61]) (v1 ++ tail)]
  rw [Option.map_some']
  rw [takeWhile_no59 v1 tail hv1]
  rcases htail with rfl | ⟨t', rfl⟩ <;> simp [List.takeWhile_cons]

lemma matchAt_ne (name n1 v1 tail : List Nat)
    (hname : ∀ b ∈ name, b ≠ 61 ∧ b ≠ 46) (hn1 : ∀ b ∈ n1, b ≠ 61)
    (hne : name ≠ n1) :
    matchAt name (n1 ++ [61] ++ (v1 ++ tail)) = none := by
  rw [matchAt]
  cases hm : matchName (name ++ [61]) (n1 ++ [61] ++ (v1 ++ tail)) with
  | none => rfl
  | some r =>
    exact absurd (matchName_literal_eq name n1 (v1 ++ tail) r hname hn1 hm)
      hne

lemma scanAfterSpace_skip (name : List Nat) :
    ∀ (pre s : List Nat), (∀ b ∈ pre, b ≠ 32) →
      scanAfterSpace name (pre ++ s) = scanAfterSpace name s := by
  intro pre
  induction pre with
  | nil => intro s _; rw [List.nil_append]
  | cons c cs ih =>
    intro s h
    rw [List.cons_append]
    simp only [scanAfterSpace, if_neg (h c (List.mem_cons_self c cs))]
    exact ih s fun b hb => h b (List.mem_cons_of_mem c hb)

lemma scanAfterSpace_space (name s : List Nat) :
    scanAfterSpace name (32 :: s) = cookieMatch name s := by
  simp [scanAfterSpace, cookieMatch]

lemma matchName_nil (name : List Nat) :
    matchName (name ++ [61]) [] = none := by
  cases name <;> rfl

lemma cookieMatch_serialize (name : List Nat)
    (hname : ∀ b ∈ name, b ≠ 61 ∧ b ≠ 46) :
    ∀ (jar : Jar), goodJar jar →
      cookieMatch name (serializeJar jar)
        = Option.map Prod.snd (List.find? (fun e => e.1 == name) jar) := by
  intro jar
  induction jar with
  | nil =>
    intro _
    simp [cookieMatch, matchAt, serializeJar, scanAfterSpace, matchName_nil]
  | cons e rest ih =>
    intro hjar
    obtain ⟨n1, v1⟩ := e
    have hg := hjar (n1, v1) (List.mem_cons_self _ _)
    have hn1_61 : ∀ b ∈ n1, b ≠ 61 := fun b hb => (hg.1.2 b hb).2.2
    have hn1_32 : ∀ b ∈ n1, b ≠ 32 := fun b hb => (hg.1.2 b hb).2.1
    have hv1_59 : ∀ b ∈ v1, b ≠ 59 := fun b hb => (hg.2.1 b hb).1
    have hv1_32 : ∀ b ∈ v1, b ≠ 32 := fun b hb => (hg.2.1 b hb).2
    have hrest : goodJar rest := fun x hx => hjar x (List.mem_cons_of_mem _ hx)
    have hpre : ∀ b ∈ n1 ++ [61] ++ v1, b ≠ 32 := by
      intro b hb
      rcases List.mem_append.mp hb with hb | hb
      · rcases List.mem_append.mp hb with hb | hb
        · exact hn1_32 b hb
        · simp only [List.mem_singleton] at hb
          omega
      · exact hv1_32 b hb
    cases rest with
    | nil =>
      have hser : serializeJar [(n1, v1)] = n1 ++ [61] ++ v1 := rfl
      by_cases he : name = n1
      · subst he
        have hm := matchAt_self name v1 [] hv1_59 (Or.inl rfl)
        rw [List.append_nil] at hm
        rw [cookieMatch, hser, hm]
        simp [List.find?_cons]
      · have hma := matchAt_ne name n1 v1 [] hname hn1_61 he
        rw [List.append_nil] at hma
        have hskip := scanAfterSpace_skip name (n1 ++ [61] ++ v1) [] hpre
        rw [List.append_nil] at hskip
        have hn1name : (n1 == name) = false :=
          beq_eq_false_iff_ne.mpr (Ne.symm he)
        rw [cookieMatch, hser, hma, hskip]
        simp [scanAfterSpace, List.find?_cons, hn1name]
    | cons e2 rest2 =>
      have hser : serializeJar ((n1, v1) :: e2 :: rest2)
          = n1 ++ [61] ++ (v1 ++ 59 :: 32 :: serializeJar (e2 :: rest2)) := by
        show n1 ++ [61] ++ v1 ++ [59, 32] ++ serializeJar (e2 :: rest2) = _
        simp [List.append_assoc]
      by_cases he : name = n1
      · subst he
        have hm := matchAt_self name v1
          (59 :: 32 :: serializeJar (e2 :: rest2)) hv1_59 (Or.inr ⟨_, rfl⟩)
        rw [cookieMatch, hser, hm]
        simp [List.find?_cons]
      · have hma := matchAt_ne name n1 v1
          (59 :: 32 :: serializeJar (e2 :: rest2)) hname hn1_61 he
        have hn1name : (n1 == name) = false :=
          beq_eq_false_iff_ne.mpr (Ne.symm he)
        have hpre2 : ∀ b ∈ (n1 ++ [61] ++ v1) ++ [(59 : Nat)], b ≠ 32 := by
          intro b hb
          rcases List.mem_append.mp hb with hb | hb
          · exact hpre b hb
          · simp only [List.mem_singleton] at hb
            omega
        have hskip := scanAfterSpace_skip name ((n1 ++ [61] ++ v1) ++ [59])
          (32 :: serializeJar (e2 :: rest2)) hpre2
        have hassoc : ((n1 ++ [61] ++ v1) ++ [59])
            ++ (32 :: serializeJar (e2 :: rest2))
            = n1 ++ [61] ++ (v1 ++ 59 :: 32 :: serializeJar (e2 :: rest2)) := by
          simp [List.append_assoc]
        rw [hassoc] at hskip
        rw [cookieMatch, hser, hma, hskip, scanAfterSpace_space, ih hrest]
        simp [List.find?_cons, hn1name]

lemma find?_map_overwrite (name v : List Nat) :
    ∀ (jar : Jar), List.any jar (fun e => e.1 == name) = true →
      List.find? (fun e => e.1 == name)
        (List.map (fun e => if e.1 == name then (name, v) else e) jar)
        = some (name, v) := by
  intro jar
  induction jar with
  | nil => intro h; simp at h
  | cons e rest ih =>
    intro h
    by_cases he : (e.1 == name) = true
    · rw [List.map_cons, if_pos he, List.find?_cons]
      simp
    · have he' : (e.1 == name) = false := by simpa using he
      rw [List.map_cons, if_neg he, List.find?_cons]
      simp only [he']
      exact ih (by simpa [he'] using h)

lemma find?_append_new (name v : List Nat) (jar : Jar)
    (h : List.any jar (fun e => e.1 == name) = false) :
    List.find? (fun e => e.1 == name) (jar ++ [(name, v)])
      = some (name, v) := by
  rw [List.find?_append]
  have hnone : List.find? (fun e => e.1 == name) jar = none := by
    rw [List.find?_eq_none]
    intro x hx
    exact List.any_eq_false.mp h x hx
  simp [hnone, List.find?_cons]

lemma find?_jarAssign_set (jar : Jar) (name v : List Nat) :
    List.find? (fun e => e.1 == name) (jarAssign jar name v false)
      = some (name, v) := by
  rw [jarAssign]
  simp only [Bool.false_eq_true, if_false]
  by_cases h : List.any jar (fun e => e.1 == name) = true
  · rw [if_pos h]
    exact find?_map_overwrite name v jar h
  · rw [if_neg h]
    refine find?_append_new name v jar ?_
    simp only [Bool.not_eq_true] at h
    exact h

lemma find?_filter_out (name : List Nat) (jar : Jar) :
    List.find? (fun e => e.1 == name)
      (List.filter (fun e => !(e.1 == name)) jar) = none := by
  refine List.find?_eq_none.mpr fun x hx => ?_
  have := (List.mem_filter.mp hx).2
  simpa using this

lemma goodJar_assign (jar : Jar) (name ev : List Nat)
    (hjar : goodJar jar) (hname : goodName name) (hev : goodValue ev) :
    goodJar (jarAssign jar name ev false) := by
  intro e he
  rw [jarAssign] at he
  simp only [Bool.false_eq_true, if_false] at he
  by_cases hany : List.any jar (fun x => x.1 == name) = true
  · rw [if_pos hany] at he
    obtain ⟨e', he', rfl⟩ := List.mem_map.mp he
    by_cases hx : (e'.1 == name) = true
    · rw [if_pos hx]
      exact ⟨hname, hev⟩
    · rw [if_neg hx]
      exact hjar e' he'
  · rw [if_neg hany] at he
    rcases List.mem_append.mp he with hb | hb
    · exact hjar e hb
    · simp only [List.mem_singleton] at hb
      subst hb
      exact ⟨hname, hev⟩

/-- C8 counterexample: the original claim fails on the code for the cookie
name `s.d` (characters `[115, 46, 100]`), which is inside its "every name"
domain.  With a preexisting cookie `sxd=5`, setting `s.d` to `"a"`
(`[97]`) stores the pair, but reading `s.d` back matches the spliced regex
`(^| )s.d=([^;]*)(;|$)` against `sxd=5; s.d=a` at position 0 — the raw `.`
is an active wildcard matching `x` — and returns the `sxd` cookie's value
`"5"` (`[53]`), not the value `"a"` that was set. -/
theorem C8_counterexample :
    set_cookie [([115, 120, 100], [53])] [115, 46, 100] [97]
        = some [([115, 120, 100], [53]), ([115, 46, 100], [97])] ∧
      get_cookie [([115, 120, 100], [53]), ([115, 46, 100], [97])]
          [115, 46, 100]
        = GetResult.value [53] := by
  constructor <;> decide

/-- C8 (amended): cookie operations round-trip on the faithful domain.  For
every well-formed jar (entry names non-empty without `;`, space or `=`;
entry values without `;` or space, decoding without `URIError`), every
cookie name that is additionally free of JS regex metacharacters, and every
value made of Unicode scalar values: `set_cookie` succeeds and a subsequent
`get_cookie` returns the value (decoding inverts the encoding applied on
set), and `del_cookie` succeeds and a subsequent `get_cookie` returns JS
`null`. -/
theorem C8_cookie_roundtrip (jar : Jar) (name value : List Nat)
    (hjar : goodJar jar) (hname : safeName name)
    (hval : ∀ c ∈ value, scalarValue c) :
    Option.map (fun jar' => get_cookie jar' name)
        (set_cookie jar name value) = some (GetResult.value value) ∧
      Option.map (fun jar' => get_cookie jar' name)
        (del_cookie jar name) = some GetResult.null := by
  obtain ⟨ev, henc, hdec, hevchars⟩ := encode_decode value hval
  have hname' : ∀ b ∈ name, b ≠ 61 ∧ b ≠ 46 := by
    intro b hb
    refine ⟨(hname.1.2 b hb).2.2, ?_⟩
    have hm := hname.2 b hb
    intro h46
    subst h46
    simp [regexMeta] at hm
  have hev : goodValue ev := ⟨hevchars, by rw [hdec]; rfl⟩
  constructor
  · rw [set_cookie, henc, Option.map_some', Option.map_some']
    rw [get_cookie,
      cookieMatch_serialize name hname' _
        (goodJar_assign jar name ev hjar hname.1 hev),
      find?_jarAssign_set]
    simp [hdec]
  · rw [del_cookie]
    have hscan := cookieMatch_serialize name hname' jar hjar
    rw [get_cookie, hscan]
    cases hfind : List.find? (fun e => e.1 == name) jar with
    | none =>
      simp only [Option.map_none', Option.map_some']
      rw [get_cookie, hscan, hfind]
      rfl
    | some e =>
      obtain ⟨n1, v1⟩ := e
      have hmem : (n1, v1) ∈ jar := List.mem_of_find?_eq_some hfind
      obtain ⟨cval, hcval⟩ :=
        Option.isSome_iff_exists.mp (hjar _ hmem).2.2
      simp only [Option.map_some']
      rw [hcval]
      simp only [Option.map_some']
      rw [get_cookie, jarAssign, if_pos rfl,
        cookieMatch_serialize name hname' _
          (fun x hx => hjar x (List.mem_of_mem_filter hx)),
        find?_filter_out]
      rfl

/-- Witness for C8 (amended) with jar `xn=5`, name `sid`
(`[115, 105, 100]`, metacharacter-free) and value `"a ;"`
(`[97, 32, 59]`, which needs percent-encoding). -/
theorem C8_witness :
    (goodJar [([120, 110], [53])] ∧ safeName [115, 105, 100] ∧
        ∀ c ∈ [97, 32, 59], scalarValue c) ∧
      (Option.map (fun jar' => get_cookie jar' [115, 105, 100])
          (set_cookie [([120, 110], [53])] [115, 105, 100] [97, 32, 59])
          = some (GetResult.value [97, 32, 59]) ∧
        Option.map (fun jar' => get_cookie jar' [115, 105, 100])
          (del_cookie [([120, 110], [53])] [115, 105, 100])
          = some GetResult.null) :=
  ⟨⟨by decide, by decide, by decide⟩,
    C8_cookie_roundtrip [([120, 110], [53])] [115, 105, 100] [97, 32, 59]
      (by decide) (by decide) (by decide)⟩

end Core
